import Mathlib

/-!
Verification of the go-logger rotation-and-retention engine, write path and
dual-mode formatter.  Definitions are shallow embeddings of the Go source:
`writer.go` (writeToLog, Debug..Critical), the library file holding `New`,
`open`, `rotate`, `Cleanup`, `startRotateTimer`, `checkAndRotate`, `Close`,
`Flush`, and the type declarations.  Strings model Go strings; `fmt.Sprintf
"%v"` on string-valued message parts is the identity, so variadic `...any`
message parts are modelled as `List String`.  File-system state is modelled
as a flat directory listing (`List Entry`) because every path the engine
touches lives in the single configured directory.
-/

namespace GoLogger

/-- Level name constants, from the `const` block of the type file. -/
def logDebug : String := "DEBUG"

def logTrace : String := "TRACE"

def logInfo : String := "INFO"

def logNotice : String := "NOTICE"

def logWarning : String := "WARNING"

def logError : String := "ERROR"

def logFatal : String := "FATAL"

def logCritical : String := "CRITICAL"

/-- Default category file names from the `const` block. -/
def defaultDebugName : String := "debug.log"

def defaultOutputName : String := "output.log"

def defaultErrorName : String := "error.log"

/-- The `Log` configuration struct.  `MaxBackup` is a Go `int` used only as a
retention count; `New` defaults it to 5 when zero, so it is modelled as `Nat`. -/
structure Config where
  path : String
  stdout : Bool
  maxSize : Int
  maxBackup : Nat
  logType : String
deriving DecidableEq, Repr

/-- ASCII uppercasing of one character, the per-rune action of
`strings.ToUpper` on the ASCII strings this package passes it. -/
def toUpperChar (c : Char) : Char :=
  if 'a' ≤ c ∧ c ≤ 'z' then Char.ofNat (c.toNat - 32) else c

/-- The `strings.ToUpper(level)` call at the top of `writeToLog`. -/
def goToUpper (s : String) : String :=
  ⟨s.data.map toUpperChar⟩

/-- The eight recognized level names, the keys of the `isValid` map literal in
`writeToLog`. -/
def levelNames : List String :=
  [logDebug, logTrace, logInfo, logNotice, logWarning, logError, logFatal, logCritical]

/-- The `isValid` map lookup in `writeToLog`: true exactly on the eight keys. -/
def validLevel (level : String) : Bool :=
  levelNames.contains level

/-- One structured (slog JSON) record: the slog method used determines the
record's level field; `message` is `messages[0]`; `attrs` are the
`slog.String` attributes passed, in order. -/
structure JsonRecord where
  slogLevel : String
  message : String
  attrs : List (String × String)
deriving DecidableEq, Repr

/-- The attribute list built from the remaining message parts:
`attrs[i] = slog.String(fmt.Sprintf("msg%d", i+1), fmt.Sprintf("%v", m))`.
Called with starting index 1. -/
def msgAttrs : List String → Nat → List (String × String)
  | [], _ => []
  | m :: rest, i => ("msg" ++ Nat.repr i, m) :: msgAttrs rest (i + 1)

/-- The slog method chosen by the `switch level` in the json branch of
`writeToLog` (Debug/Info/Warn/Error), i.e. the level slog stamps on the
record. -/
def slogLevelOf (level : String) : String :=
  if level = logDebug then "DEBUG"
  else if level = logTrace then "INFO"
  else if level = logInfo then "INFO"
  else if level = logNotice then "INFO"
  else if level = logWarning then "WARN"
  else "ERROR"

/-- The extra `slog.String("level", ...)` attribute appended for the levels
that do not map one-to-one onto a slog level (TRACE, NOTICE, FATAL,
CRITICAL). -/
def extraLevelAttr (level : String) : List (String × String) :=
  if level = logTrace then [("level", "TRACE")]
  else if level = logNotice then [("level", "NOTICE")]
  else if level = logFatal then [("level", "FATAL")]
  else if level = logCritical then [("level", "CRITICAL")]
  else []

/-- One unit of output written to the category's writer: a structured record
(json mode) or one text line (tree mode).  The `log.Logger` timestamp that
precedes every text line is orthogonal to every claim and omitted. -/
inductive OutputEvent where
  | jsonRec (r : JsonRecord)
  | line (s : String)
deriving DecidableEq, Repr

/-- The per-index `switch` of the tree-mode loop in `writeToLog`:
index 0 gets the level tag, the last index the corner glyph, all others the
branch glyph. -/
def renderLine (n i : Nat) (tag msg : String) : String :=
  if i = 0 then tag ++ msg
  else if i = n - 1 then "└── " ++ msg
  else "├── " ++ msg

/-- The headline decoration: empty for INFO, bracketed level otherwise. -/
def levelTag (level : String) : String :=
  if level = logInfo then "" else "[" ++ level ++ "] "

/-- Tree-mode rendering: the indexed loop over `messages`. -/
def treeLines (level : String) (messages : List String) : List String :=
  messages.enum.map fun p => renderLine messages.length p.1 (levelTag level) p.2

/-- The body of `writeToLog` after the closed/empty gate: json branch builds
one slog record from the head and tail of `messages`; otherwise the tree-mode
loop runs. -/
def writeEventsCore (cfg : Config) (level : String) (messages : List String) :
    List OutputEvent :=
  if cfg.logType = "json" then
    match messages with
    | [] => []
    | msg :: remaining =>
      [OutputEvent.jsonRec
        { slogLevel := slogLevelOf level
          message := msg
          attrs := msgAttrs remaining 1 ++ extraLevelAttr level }]
  else
    (treeLines level messages).map OutputEvent.line

/-- `writeToLog` of `writer.go`: uppercase the level, validate it, and under
the mutex return with no output when the logger is closed or the message list
is empty; otherwise emit the formatted events.  The function's value is the
sequence of events written to the category's writer (which mirrors to a
console stream when configured, so no events means no console output
either). -/
def writeToLog (cfg : Config) (isClose : Bool) (level : String)
    (messages : List String) : List OutputEvent :=
  let lv := goToUpper level
  if validLevel lv then
    if isClose || messages.isEmpty then [] else writeEventsCore cfg lv messages
  else []

/-- Observable actions of one call into the engine, used to compare the
synchronization and rotation behaviour of the write path with the background
timer task. -/
inductive Action where
  | lock
  | unlock
  | write (e : OutputEvent)
  | rotateCheck (filename : String)
  | resetTimer
deriving DecidableEq, Repr

/-- The action trace of `writeToLog` in `writer.go`: after the level check it
acquires `l.Mutex`, possibly writes the formatted events, and releases the
mutex via `defer`.  The trace contains no rotation action because the current
`writeToLog` body has no `checkAndRotate` call and never consults file
sizes. -/
def writeToLogActions (cfg : Config) (isClose : Bool) (level : String)
    (messages : List String) : List Action :=
  let lv := goToUpper level
  if validLevel lv then
    Action.lock ::
      ((if isClose || messages.isEmpty then []
        else (writeEventsCore cfg lv messages).map Action.write) ++ [Action.unlock])
  else []

/-- The action trace of one tick of the goroutine started by
`startRotateTimer`: `checkAndRotate` on the three category files, then
`timer.Reset`.  The goroutine body takes no lock: neither the select loop nor
`checkAndRotate` touches `l.Mutex`. -/
def timerTickActions : List Action :=
  [Action.rotateCheck defaultDebugName, Action.rotateCheck defaultOutputName,
   Action.rotateCheck defaultErrorName, Action.resetTimer]

/-- Appending the supplied Go error's text as one more message part, the
`if err != nil { messages = append(messages, err.Error()) }` prologue of the
error-returning methods. -/
def appendErrPart (messages : List String) (err : Option String) : List String :=
  match err with
  | some e => messages ++ [e]
  | none => messages

/-- Result of one error-returning method: the events written plus the Go
error returned to the caller (`some text` models a non-nil `error` with that
text; the methods build it with `fmt.Errorf`, which never yields nil). -/
structure MethodResult where
  events : List OutputEvent
  ret : Option String
deriving DecidableEq, Repr

/-- The `Error` method of `writer.go`. -/
def Error (cfg : Config) (isClose : Bool) (err : Option String)
    (messages : List String) : MethodResult :=
  let ms := appendErrPart messages err
  ⟨writeToLog cfg isClose logError ms, some (String.intercalate " " ms)⟩

/-- The `Fatal` method of `writer.go`. -/
def Fatal (cfg : Config) (isClose : Bool) (err : Option String)
    (messages : List String) : MethodResult :=
  let ms := appendErrPart messages err
  ⟨writeToLog cfg isClose logFatal ms, some (String.intercalate " " ms)⟩

/-- The `Critical` method of `writer.go`. -/
def Critical (cfg : Config) (isClose : Bool) (err : Option String)
    (messages : List String) : MethodResult :=
  let ms := appendErrPart messages err
  ⟨writeToLog cfg isClose logCritical ms, some (String.intercalate " " ms)⟩

/-- A text-mode configuration with a small size limit, used to evaluate the
write path at concrete inputs. -/
def cfgTextSmall : Config :=
  { path := "./logs", stdout := false, maxSize := 100, maxBackup := 5, logType := "text" }

/-- A json-mode configuration with the default limits. -/
def cfgJsonC : Config :=
  { path := "./logs", stdout := false, maxSize := 16777216, maxBackup := 5, logType := "json" }

/-- Flattened list of attribute field names across the structured records of
an event list. -/
def jsonFieldNames (events : List OutputEvent) : List String :=
  (events.map fun e =>
    match e with
    | OutputEvent.jsonRec r => r.attrs.map Prod.fst
    | OutputEvent.line _ => []).flatten

/-- One directory entry: a file name (within the single configured log
directory) and its modification time, as collected by `Cleanup` into
`backupFile{path, modTime}`.  Modification times are modelled as `Nat`
instants. -/
structure Entry where
  name : String
  modTime : Nat
deriving DecidableEq, Repr

/-- The suffix accepted after the base name by the `Cleanup` regexp
`^<base>\.\d{8}_\d{6}$`: a dot, eight digits, an underscore, six digits, and
nothing else. -/
def backupSuffix : List Char → Bool
  | '.' :: rest =>
    rest.length == 15 && (rest.take 8).all Char.isDigit &&
      (match rest.drop 8 with
       | '_' :: t => t.all Char.isDigit
       | _ => false)
  | _ => false

/-- The fixed backup pattern of `Cleanup`: the name is the quoted base name
followed by `.YYYYMMDD_HHMMSS`. -/
def isBackupName (base name : String) : Bool :=
  (name.data.take base.data.length == base.data) &&
    backupSuffix (name.data.drop base.data.length)

/-- The entries of the directory matching the backup pattern for `base`, in
listing order — the `backupFiles` slice built by `Cleanup`. -/
def backupMatches (dir : List Entry) (base : String) : List Entry :=
  dir.filter fun e => isBackupName base e.name

/-- The comparator of the `sort.Slice` call in `Cleanup`:
`backupFiles[i].modTime.After(backupFiles[j].modTime)` sorts newest first.
Modelled as the reflexive descending order on `modTime`; Go's unstable sort
leaves tie order unspecified, and no claim depends on tie order. -/
def newestFirst (a b : Entry) : Prop :=
  b.modTime ≤ a.modTime

instance : DecidableRel newestFirst := fun a b => Nat.decLe b.modTime a.modTime

instance : IsTotal Entry newestFirst :=
  ⟨fun a b => Nat.le_total b.modTime a.modTime⟩

instance : IsTrans Entry newestFirst :=
  ⟨fun _ _ _ hab hbc => Nat.le_trans hbc hab⟩

/-- The backups `Cleanup` deletes: when more than `maxBackup` names match,
everything beyond the `maxBackup`-th of the newest-first ordering. -/
def cleanupDeleted (dir : List Entry) (base : String) (maxBackup : Nat) : List Entry :=
  let found := backupMatches dir base
  if maxBackup < found.length then
    (List.insertionSort newestFirst found).drop maxBackup
  else []

/-- Result of a prune: the directory after the deletions performed, and the
error (if any) that aborted it. -/
structure CleanupOutcome where
  dir : List Entry
  err : Option String
deriving DecidableEq, Repr

/-- The deletion loop of `Cleanup`: `os.Remove` each excess backup in order;
a failing removal returns its error at once, leaving earlier deletions in
place.  `removeOk` is the environment's say on whether a removal succeeds. -/
def removeAll (dir : List Entry) (toRemove : List Entry) (removeOk : Entry → Bool) :
    CleanupOutcome :=
  match toRemove with
  | [] => ⟨dir, none⟩
  | e :: rest =>
    if removeOk e then removeAll (dir.erase e) rest removeOk
    else ⟨dir, some ("Failed to remove " ++ e.name)⟩

/-- `Cleanup(path)`: list the directory, keep the names matching the backup
pattern for the base name, and when they exceed `maxBackup`, delete every
entry beyond the `maxBackup`-th newest. -/
def Cleanup (dir : List Entry) (base : String) (maxBackup : Nat)
    (removeOk : Entry → Bool) : CleanupOutcome :=
  removeAll dir (cleanupDeleted dir base maxBackup) removeOk

/-- Result of `rotate`: the directory afterwards, the error returned to the
caller, and the diagnostics printed to the process's stdout. -/
structure RotateOutcome where
  dir : List Entry
  err : Option String
  diag : List String
deriving DecidableEq, Repr

/-- `rotate(path)`: rename the active file to `path + "." + timestamp`; a
rename failure (here: no such file) is returned to the caller.  A `Cleanup`
failure is printed (`fmt.Printf("Failed to clean: %v", err)`) and swallowed:
`rotate` still returns nil.  `os.Rename` keeps the modification time. -/
def rotate (dir : List Entry) (path ts : String) (maxBackup : Nat)
    (removeOk : Entry → Bool) : RotateOutcome :=
  match dir.find? (fun e => e.name == path) with
  | none => ⟨dir, some "Failed to rotate", []⟩
  | some e =>
    let dir1 := { name := path ++ "." ++ ts, modTime := e.modTime } :: dir.erase e
    let c := Cleanup dir1 path maxBackup removeOk
    match c.err with
    | some m => ⟨c.dir, none, ["Failed to clean: " ++ m]⟩
    | none => ⟨c.dir, none, []⟩

/-- The mutable logger state touched by `Close`: the closed flag, the open
file names of the `File` map, and whether the `stopTimer` channel is still
open. -/
structure LoggerState where
  isClose : Bool
  files : List String
  stopTimerOpen : Bool
deriving DecidableEq, Repr

/-- Side effects of a `Close` call. -/
inductive CloseAction where
  | signalStop
  | closeFile (name : String)
deriving DecidableEq, Repr

/-- Result of a `Close` call: the state afterwards, the aggregated error
(`some errs` models the single error wrapping the individual close failures),
and the actions performed. -/
structure CloseOutcome where
  state : LoggerState
  err : Option (List String)
  actions : List CloseAction
deriving DecidableEq, Repr

/-- `Close()`: under the write lock, return nil at once when already closed;
otherwise set the flag, close the stop channel, close every handle even if
some fail, and aggregate the failures.  `closeErr` is the environment's say
on whether closing a given handle fails. -/
def Close (s : LoggerState) (closeErr : String → Option String) : CloseOutcome :=
  if s.isClose then ⟨s, none, []⟩
  else
    let errs := s.files.filterMap closeErr
    ⟨{ s with isClose := true, stopTimerOpen := false },
     if errs.isEmpty then none else some errs,
     (if s.stopTimerOpen then [CloseAction.signalStop] else []) ++
       s.files.map CloseAction.closeFile⟩

/-- Each of the eight level names is already uppercase, so the
`strings.ToUpper` prologue leaves it unchanged. -/
theorem goToUpper_of_levelName : ∀ l ∈ levelNames, goToUpper l = l := by
  intro l hl
  simp only [levelNames, logDebug, logTrace, logInfo, logNotice, logWarning, logError,
    logFatal, logCritical, List.mem_cons, List.not_mem_nil, or_false] at hl
  rcases hl with rfl | rfl | rfl | rfl | rfl | rfl | rfl | rfl <;> decide

/-- Each of the eight level names passes the `isValid` lookup. -/
theorem validLevel_of_mem {l : String} (hl : l ∈ levelNames) : validLevel l = true := by
  simp [validLevel, List.elem_iff, hl]

/-- C2: each of `Error`, `Fatal` and `Critical` returns a non-nil error whose
text is the message parts joined by single spaces, with the underlying
error's text appended as one final part exactly when it is present — for
every configuration, open or closed state, message list and optional
underlying error. -/
theorem error_levels_return_joined_parts (cfg : Config) (isClose : Bool)
    (err : Option String) (messages : List String) :
    (Error cfg isClose err messages).ret
        = some (String.intercalate " " (messages ++ err.toList)) ∧
      (Fatal cfg isClose err messages).ret
        = some (String.intercalate " " (messages ++ err.toList)) ∧
      (Critical cfg isClose err messages).ret
        = some (String.intercalate " " (messages ++ err.toList)) ∧
      (Error cfg isClose err messages).ret ≠ none := by
  cases err <;> simp [Error, Fatal, Critical, appendErrPart, Option.toList]

/-- C8: a leveled call on a closed logger, or with an empty message list,
writes nothing at all — no file event and hence no mirrored console event —
in every output mode and at every level, and it returns normally. -/
theorem closed_or_empty_writes_nothing (cfg : Config) (isClose : Bool)
    (level : String) (messages : List String)
    (h : isClose = true ∨ messages = []) :
    writeToLog cfg isClose level messages = [] := by
  rcases h with rfl | rfl <;> simp [writeToLog]

/-- Witness for C8 at a concrete closed-state call. -/
theorem closed_or_empty_writes_nothing_witness :
    (true = true ∨ (["x"] : List String) = []) ∧
      writeToLog cfgJsonC true logInfo ["x"] = [] :=
  ⟨Or.inl rfl, closed_or_empty_writes_nothing cfgJsonC true logInfo ["x"] (Or.inl rfl)⟩

/-- C10: the first `Close` leaves the logger in the closed state, and a
second `Close` on that state returns nil without closing any handle or
signalling the stop channel again — for every starting state and every
behaviour of the individual handle closes. -/
theorem Close_idempotent (s : LoggerState) (closeErr : String → Option String) :
    (Close s closeErr).state.isClose = true ∧
      Close (Close s closeErr).state closeErr = ⟨(Close s closeErr).state, none, []⟩ := by
  by_cases h : s.isClose <;> simp [Close, h]

/-- C1 (divergent code): the write path of `writer.go` performs no rotation
check at all.  At a concrete open-logger call its full action trace is
lock, write, unlock — regardless of the file's current size, which the
function never consults — so a call made while the file is over the size
limit writes into that file unrotated. -/
theorem write_path_skips_rotation :
    writeToLogActions cfgTextSmall false logInfo ["x"] =
        [Action.lock, Action.write (OutputEvent.line "x"), Action.unlock] ∧
      ∀ f, Action.rotateCheck f ∉ writeToLogActions cfgTextSmall false logInfo ["x"] := by
  refine ⟨by decide, ?_⟩
  intro f hf
  rw [show writeToLogActions cfgTextSmall false logInfo ["x"] =
      [Action.lock, Action.write (OutputEvent.line "x"), Action.unlock] from by decide] at hf
  simp at hf

/-- C7 (divergent code): one tick of the background rotation goroutine
performs the three per-category rotation checks and the timer reset without
ever acquiring the mutex, while the write path does hold the mutex — so the
two do not serialize through the shared exclusive lock. -/
theorem timer_tick_takes_no_lock :
    timerTickActions =
        [Action.rotateCheck defaultDebugName, Action.rotateCheck defaultOutputName,
         Action.rotateCheck defaultErrorName, Action.resetTimer] ∧
      Action.lock ∉ timerTickActions ∧
      Action.lock ∈ writeToLogActions cfgTextSmall false logInfo ["y"] := by
  refine ⟨rfl, by decide, by decide⟩

/-- C3 (counterexample): in structured mode the auxiliary fields of the
record produced for parts A, B, C are named `msg1` and `msg2`, not
`detail-1` and `detail-2`. -/
theorem json_aux_fields_named_msg :
    jsonFieldNames (writeToLog cfgJsonC false logInfo ["A", "B", "C"]) = ["msg1", "msg2"] ∧
      "detail-1" ∉ jsonFieldNames (writeToLog cfgJsonC false logInfo ["A", "B", "C"]) := by
  refine ⟨by decide, ?_⟩
  rw [show jsonFieldNames (writeToLog cfgJsonC false logInfo ["A", "B", "C"])
      = ["msg1", "msg2"] from by decide]
  decide

/-- Tree rendering of a three-part message: decorated headline, branch line,
corner line. -/
theorem treeLines_three (level A B C : String) :
    treeLines level [A, B, C] =
      [(if level = logInfo then A else "[" ++ level ++ "] " ++ A),
       "├── " ++ B, "└── " ++ C] := by
  simp only [treeLines, List.enum, List.enumFrom, List.length_cons, List.length_nil,
    List.map_cons, List.map_nil, renderLine, levelTag]
  norm_num
  by_cases h : level = logInfo <;> simp [h, String.append_assoc]

/-- Tree rendering of a single-part message: one decorated line, no glyph. -/
theorem treeLines_one (level A : String) :
    treeLines level [A] = [(if level = logInfo then A else "[" ++ level ++ "] " ++ A)] := by
  simp only [treeLines, List.enum, List.enumFrom, List.map_cons, List.map_nil, renderLine]
  norm_num [levelTag]
  by_cases h : level = logInfo <;> simp [h, String.append_assoc]

/-- The attribute list of a two-part remainder carries the parts as `msg1`
and `msg2`, in order. -/
theorem msgAttrs_two (B C : String) : msgAttrs [B, C] 1 = [("msg1", B), ("msg2", C)] := by
  simp only [msgAttrs, Nat.reduceAdd, show ("msg" ++ Nat.repr 1) = "msg1" from by decide,
    show ("msg" ++ Nat.repr 2) = "msg2" from by decide]

/-- C4: in tree mode, an open-logger call with parts A, B, C at any
recognized level produces exactly the three lines — the headline decorated
with the bracketed level tag except at the informational level, then the
branch line for B, then the corner line for C — and a single-part message
produces exactly the one undecorated-tail line. -/
theorem tree_mode_lines (cfg : Config) (htext : cfg.logType = "text")
    (level : String) (hlev : level ∈ levelNames) (A B C : String) :
    writeToLog cfg false level [A, B, C] =
        [OutputEvent.line (if level = logInfo then A else "[" ++ level ++ "] " ++ A),
         OutputEvent.line ("├── " ++ B), OutputEvent.line ("└── " ++ C)] ∧
      writeToLog cfg false level [A] =
        [OutputEvent.line (if level = logInfo then A else "[" ++ level ++ "] " ++ A)] := by
  have h1 := goToUpper_of_levelName level hlev
  have h2 := validLevel_of_mem hlev
  constructor <;>
    simp [writeToLog, h1, h2, writeEventsCore, htext, treeLines_three, treeLines_one]

/-- Witness for C4 at the error level and concrete parts. -/
theorem tree_mode_lines_witness :
    (cfgTextSmall.logType = "text" ∧ logError ∈ levelNames) ∧
      (writeToLog cfgTextSmall false logError ["A", "B", "C"] =
          [OutputEvent.line (if logError = logInfo then "A" else "[" ++ logError ++ "] " ++ "A"),
           OutputEvent.line ("├── " ++ "B"), OutputEvent.line ("└── " ++ "C")] ∧
        writeToLog cfgTextSmall false logError ["A"] =
          [OutputEvent.line (if logError = logInfo then "A" else "[" ++ logError ++ "] " ++ "A")]) :=
  ⟨⟨rfl, by decide⟩, tree_mode_lines cfgTextSmall rfl logError (by decide) "A" "B" "C"⟩

/-- C3 (amended): in structured mode, an open-logger call with parts A, B, C
at any recognized level emits exactly one record whose message is A and whose
auxiliary fields are `msg1 = B` and `msg2 = C`, in order, followed only by
the level-tag attribute some levels add; a single-part message carries no
auxiliary field. -/
theorem json_mode_one_record (cfg : Config) (hjson : cfg.logType = "json")
    (level : String) (hlev : level ∈ levelNames) (A B C : String) :
    ∃ extra, (∀ q ∈ extra, Prod.fst q = "level") ∧
      writeToLog cfg false level [A, B, C] =
        [OutputEvent.jsonRec
          { slogLevel := slogLevelOf level, message := A,
            attrs := [("msg1", B), ("msg2", C)] ++ extra }] ∧
      writeToLog cfg false level [A] =
        [OutputEvent.jsonRec
          { slogLevel := slogLevelOf level, message := A, attrs := extra }] := by
  have h1 := goToUpper_of_levelName level hlev
  have h2 := validLevel_of_mem hlev
  refine ⟨extraLevelAttr level, ?_, ?_, ?_⟩
  · intro q hq
    simp only [extraLevelAttr] at hq
    split_ifs at hq <;> simp_all
  · simp [writeToLog, h1, h2, writeEventsCore, hjson, msgAttrs_two]
  · simp [writeToLog, h1, h2, writeEventsCore, hjson, msgAttrs]

/-- Witness for C3's amended statement at the informational level. -/
theorem json_mode_one_record_witness :
    (cfgJsonC.logType = "json" ∧ logInfo ∈ levelNames) ∧
      ∃ extra, (∀ q ∈ extra, Prod.fst q = "level") ∧
        writeToLog cfgJsonC false logInfo ["A", "B", "C"] =
          [OutputEvent.jsonRec
            { slogLevel := slogLevelOf logInfo, message := "A",
              attrs := [("msg1", "B"), ("msg2", "C")] ++ extra }] ∧
        writeToLog cfgJsonC false logInfo ["A"] =
          [OutputEvent.jsonRec
            { slogLevel := slogLevelOf logInfo, message := "A", attrs := extra }] :=
  ⟨⟨rfl, by decide⟩, json_mode_one_record cfgJsonC rfl logInfo (by decide) "A" "B" "C"⟩

/-- When every removal succeeds, the deletion loop removes exactly the listed
entries from the directory and reports no error. -/
theorem removeAll_ok (dir toRemove : List Entry) :
    removeAll dir toRemove (fun _ => true) = ⟨dir.diff toRemove, none⟩ := by
  induction toRemove generalizing dir with
  | nil => simp [removeAll]
  | cons e rest ih => simp [removeAll, List.diff_cons, ih]

/-- The active-name never matches the backup pattern built from it: the
pattern requires sixteen additional characters after the base name. -/
theorem isBackupName_self (base : String) : isBackupName base base = false := by
  unfold isBackupName
  rw [List.drop_length]
  simp [backupSuffix]

/-- Multiset identity behind the prune: after deleting the tail of the
newest-first ordering, the surviving backup matches are exactly the first
`maxBackup` of that ordering. -/
theorem cleanup_core (dir : List Entry) (base : String) (k : Nat) :
    (↑((dir.diff ((List.insertionSort newestFirst (backupMatches dir base)).drop k)).filter
        (fun e => isBackupName base e.name)) : Multiset Entry)
      = ↑((List.insertionSort newestFirst (backupMatches dir base)).take k) := by
  classical
  set p : Entry → Bool := fun e => isBackupName base e.name with hp
  set M : List Entry := backupMatches dir base with hMdef
  set S : List Entry := List.insertionSort newestFirst M with hS
  have hperm : S.Perm M := List.perm_insertionSort _ _
  have hcoeS : (↑S : Multiset Entry) = ↑M := Multiset.coe_eq_coe.mpr hperm
  have hfilterS : ∀ l : List Entry,
      (↑(l.filter p) : Multiset Entry) = Multiset.filter (fun a => p a = true) ↑l := by
    intro l
    rw [Multiset.filter_coe]
    congr 1
    simp only [Bool.decide_eq_true]
  have h1 : Multiset.filter (fun a => p a = true) ↑dir = (↑M : Multiset Entry) := by
    rw [← hfilterS dir, hMdef]
    rfl
  have h2 : Multiset.filter (fun a => p a = true) ↑(S.drop k) = (↑(S.drop k) : Multiset Entry) := by
    rw [Multiset.filter_eq_self]
    intro a ha
    have haS : a ∈ S := List.drop_subset _ _ (Multiset.mem_coe.mp ha)
    have haM : a ∈ M := hperm.mem_iff.mp haS
    exact List.of_mem_filter haM
  calc (↑((dir.diff (S.drop k)).filter p) : Multiset Entry)
      = Multiset.filter (fun a => p a = true) ↑(dir.diff (S.drop k)) := hfilterS _
    _ = Multiset.filter (fun a => p a = true) (↑dir - ↑(S.drop k)) := by
        rw [Multiset.coe_sub]
    _ = Multiset.filter (fun a => p a = true) ↑dir
          - Multiset.filter (fun a => p a = true) ↑(S.drop k) := by
        rw [Multiset.filter_sub]
    _ = ↑M - ↑(S.drop k) := by rw [h1, h2]
    _ = ↑(S.take k) + ↑(S.drop k) - ↑(S.drop k) := by
        rw [Multiset.coe_add, List.take_append_drop, hcoeS]
    _ = ↑(S.take k) := add_tsub_cancel_right _ _

/-- C5: when more than `k` backups of a base name exist and every deletion
succeeds, the prune reports no error, deletes exactly the excess entries,
leaves exactly `k` surviving backups, and every survivor is at least as
recently modified as every deleted backup. -/
theorem Cleanup_retention (dir : List Entry) (base : String) (k : Nat)
    (hk : k < (backupMatches dir base).length) :
    (Cleanup dir base k (fun _ => true)).err = none ∧
      (backupMatches (Cleanup dir base k (fun _ => true)).dir base).length = k ∧
      (cleanupDeleted dir base k).length = (backupMatches dir base).length - k ∧
      ∀ s ∈ backupMatches (Cleanup dir base k (fun _ => true)).dir base,
        ∀ d ∈ cleanupDeleted dir base k, d.modTime ≤ s.modTime := by
  classical
  have hdel : cleanupDeleted dir base k
      = (List.insertionSort newestFirst (backupMatches dir base)).drop k := by
    simp [cleanupDeleted, hk]
  have hC : Cleanup dir base k (fun _ => true)
      = ⟨dir.diff ((List.insertionSort newestFirst (backupMatches dir base)).drop k), none⟩ := by
    rw [Cleanup, hdel, removeAll_ok]
  have hmul := cleanup_core dir base k
  have hlenS : (List.insertionSort newestFirst (backupMatches dir base)).length
      = (backupMatches dir base).length :=
    (List.perm_insertionSort _ _).length_eq
  refine ⟨by rw [hC], ?_, ?_, ?_⟩
  · have := congrArg Multiset.card hmul
    simp only [Multiset.coe_card] at this
    rw [hC]
    show ((dir.diff _).filter _).length = k
    rw [this, List.length_take, hlenS, Nat.min_eq_left hk.le]
  · rw [hdel, List.length_drop, hlenS]
  · intro s hs d hd
    rw [hdel] at hd
    rw [hC] at hs
    have hsTake : s ∈ (List.insertionSort newestFirst (backupMatches dir base)).take k := by
      have hsc : s ∈ (↑((dir.diff ((List.insertionSort newestFirst
          (backupMatches dir base)).drop k)).filter
            (fun e => isBackupName base e.name)) : Multiset Entry) :=
        Multiset.mem_coe.mpr hs
      rw [hmul] at hsc
      exact Multiset.mem_coe.mp hsc
    have hsorted : List.Pairwise newestFirst
        (List.insertionSort newestFirst (backupMatches dir base)) :=
      List.sorted_insertionSort _ _
    rw [← List.take_append_drop k
      (List.insertionSort newestFirst (backupMatches dir base))] at hsorted
    rcases List.pairwise_append.mp hsorted with ⟨-, -, hcross⟩
    exact hcross s hsTake d hd

/-- A concrete directory holding the active `output.log` and six backups with
distinct modification times. -/
def dirSix : List Entry :=
  [⟨"output.log", 99⟩, ⟨"output.log.20230101_120000", 1⟩,
   ⟨"output.log.20230102_120000", 2⟩, ⟨"output.log.20230103_120000", 3⟩,
   ⟨"output.log.20230104_120000", 4⟩, ⟨"output.log.20230105_120000", 5⟩,
   ⟨"output.log.20230106_120000", 6⟩]

/-- Witness for C5: six backups of `output.log` with `maxBackup = 3`; the
prune keeps the three newest. -/
theorem Cleanup_retention_witness :
    3 < (backupMatches dirSix "output.log").length ∧
      ((Cleanup dirSix "output.log" 3 (fun _ => true)).err = none ∧
        (backupMatches (Cleanup dirSix "output.log" 3 (fun _ => true)).dir
          "output.log").length = 3 ∧
        (cleanupDeleted dirSix "output.log" 3).length
          = (backupMatches dirSix "output.log").length - 3 ∧
        ∀ s ∈ backupMatches (Cleanup dirSix "output.log" 3 (fun _ => true)).dir "output.log",
          ∀ d ∈ cleanupDeleted dirSix "output.log" 3, d.modTime ≤ s.modTime) :=
  ⟨by decide, Cleanup_retention dirSix "output.log" 3 (by decide)⟩

/-- C9: every entry the prune deletes matches the backup pattern for the base
name, and the active file's bare name never does — so the prune can never
delete the active log (or any other non-backup-shaped file). -/
theorem Cleanup_deletes_only_backups (dir : List Entry) (base : String) (k : Nat) :
    ∀ d ∈ cleanupDeleted dir base k, isBackupName base d.name = true ∧ d.name ≠ base := by
  intro d hd
  simp only [cleanupDeleted] at hd
  split at hd
  · have hdS : d ∈ List.insertionSort newestFirst (backupMatches dir base) :=
      List.drop_subset _ _ hd
    have hdM : d ∈ List.filter (fun e => isBackupName base e.name) dir :=
      (List.perm_insertionSort _ _).mem_iff.mp hdS
    have hpb : isBackupName base d.name = true := (List.mem_filter.mp hdM).2
    refine ⟨hpb, ?_⟩
    intro heq
    have hself : isBackupName base base = true := heq ▸ hpb
    rw [isBackupName_self] at hself
    exact Bool.false_ne_true hself
  · exact absurd hd (List.not_mem_nil d)

/-- Witness for C9: with retention zero, the single backup is deleted; it
matches the pattern and differs from the active name. -/
theorem Cleanup_deletes_only_backups_witness :
    (⟨"b.log.20230101_000000", 1⟩ : Entry) ∈
        cleanupDeleted [⟨"b.log", 7⟩, ⟨"b.log.20230101_000000", 1⟩] "b.log" 0 ∧
      isBackupName "b.log" (Entry.name ⟨"b.log.20230101_000000", 1⟩) = true ∧
      Entry.name ⟨"b.log.20230101_000000", 1⟩ ≠ "b.log" :=
  ⟨by decide,
   Cleanup_deletes_only_backups [⟨"b.log", 7⟩, ⟨"b.log.20230101_000000", 1⟩] "b.log" 0
     ⟨"b.log.20230101_000000", 1⟩ (by decide)⟩

/-- The deletion loop only ever removes entries: its resulting directory is
contained in the starting one. -/
theorem removeAll_dir_subset (toRemove : List Entry) (dir : List Entry)
    (removeOk : Entry → Bool) : (removeAll dir toRemove removeOk).dir ⊆ dir := by
  induction toRemove generalizing dir with
  | nil => simp [removeAll]
  | cons e rest ih =>
    by_cases h : removeOk e = true
    · simpa [removeAll, h] using (ih (dir.erase e)).trans (List.erase_subset ..)
    · simp [removeAll, h]

/-- A concrete directory: the active `a.log` plus two backups. -/
def dirRot : List Entry :=
  [⟨"a.log", 10⟩, ⟨"a.log.20230101_000000", 1⟩, ⟨"a.log.20230102_000000", 2⟩]

/-- A removal environment in which deleting the newer of the two old backups
fails. -/
def removeFailOn (e : Entry) : Bool :=
  !(e.name == "a.log.20230102_000000")

/-- C6 (counterexample): in a rotation whose rename succeeds and whose prune
then fails on a deletion, `rotate` returns nil — the prune's error is printed
and swallowed, not propagated to the rotation's caller. -/
theorem rotate_nil_despite_prune_failure :
    (Cleanup (⟨"a.log.20240101_000000", 10⟩ :: (dirRot.erase ⟨"a.log", 10⟩))
        "a.log" 1 removeFailOn).err ≠ none ∧
      (rotate dirRot "a.log" "20240101_000000" 1 removeFailOn).err = none ∧
      (rotate dirRot "a.log" "20240101_000000" 1 removeFailOn).diag ≠ [] := by
  decide

/-- C6 (amended): when the rename succeeds and the prune then fails, the
prune aborts (keeping the deletions already performed), its error is reported
on the diagnostic stream, `rotate` nevertheless returns nil, and the rename
is not rolled back — the active name is gone from the directory. -/
theorem rotate_swallows_prune_error (dir : List Entry) (path ts : String) (k : Nat)
    (removeOk : Entry → Bool) (e : Entry) (m : String)
    (hfind : dir.find? (fun x => x.name == path) = some e)
    (hnames : (dir.map Entry.name).Nodup)
    (hfail : (Cleanup ({ name := path ++ "." ++ ts, modTime := e.modTime } :: dir.erase e)
        path k removeOk).err = some m) :
    (rotate dir path ts k removeOk).err = none ∧
      (rotate dir path ts k removeOk).diag = ["Failed to clean: " ++ m] ∧
      path ∉ (rotate dir path ts k removeOk).dir.map Entry.name := by
  have hrot : rotate dir path ts k removeOk =
      ⟨(Cleanup ({ name := path ++ "." ++ ts, modTime := e.modTime } :: dir.erase e)
          path k removeOk).dir, none, ["Failed to clean: " ++ m]⟩ := by
    simp only [rotate, hfind, hfail]
  refine ⟨by rw [hrot], by rw [hrot], ?_⟩
  rw [hrot]
  intro hmem
  obtain ⟨x, hx, hxname⟩ := List.mem_map.mp hmem
  have hx1 : x ∈ { name := path ++ "." ++ ts, modTime := e.modTime } :: dir.erase e :=
    removeAll_dir_subset _ _ _ hx
  have hbeq : (e.name == path) = true := by
    have h := List.find?_some (p := fun x : Entry => x.name == path) hfind
    simpa using h
  have hepath : e.name = path := eq_of_beq hbeq
  have hemem : e ∈ dir := List.mem_of_find?_eq_some hfind
  rcases List.mem_cons.mp hx1 with rfl | hx2
  · have : (path ++ "." ++ ts).length = path.length := congrArg String.length hxname
    rw [String.length_append, String.length_append] at this
    rw [show String.length "." = 1 from rfl] at this
    omega
  · have hxdir : x ∈ dir := List.erase_subset e dir hx2
    have hxe : x = e :=
      List.inj_on_of_nodup_map hnames hxdir hemem (by rw [hxname, hepath])
    have hxne : x ≠ e := ((List.Nodup.of_map Entry.name hnames).mem_erase_iff.mp hx2).1
    exact hxne hxe

/-- Witness for C6's amended statement at the concrete failing rotation. -/
theorem rotate_swallows_prune_error_witness :
    (dirRot.find? (fun x => x.name == "a.log") = some ⟨"a.log", 10⟩ ∧
        (dirRot.map Entry.name).Nodup ∧
        (Cleanup ({ name := "a.log" ++ "." ++ "20240101_000000", modTime := 10 }
            :: dirRot.erase ⟨"a.log", 10⟩) "a.log" 1 removeFailOn).err
          = some "Failed to remove a.log.20230102_000000") ∧
      ((rotate dirRot "a.log" "20240101_000000" 1 removeFailOn).err = none ∧
        (rotate dirRot "a.log" "20240101_000000" 1 removeFailOn).diag
          = ["Failed to clean: " ++ "Failed to remove a.log.20230102_000000"] ∧
        "a.log" ∉ (rotate dirRot "a.log" "20240101_000000" 1 removeFailOn).dir.map Entry.name) :=
  ⟨⟨by decide, by decide, by decide⟩,
   rotate_swallows_prune_error dirRot "a.log" "20240101_000000" 1 removeFailOn
     ⟨"a.log", 10⟩ "Failed to remove a.log.20230102_000000" (by decide) (by decide) (by decide)⟩

end GoLogger
